import Mathlib

/-!
Shallow embedding of the Wii remote driver (src/wii-remote-driver.c).

The circular buffer is a byte (char) store of capacity `CIRC_BUFFER_SIZE`
with a write index `head` and a read index `tail`.  `circ_buffer_write`
embeds the write loop, `read_loop` / `device_read` embed the read loop of
`device_read` (the `fault` oracle models `copy_to_user` failing at a given
offset into the user buffer).  `perform_input_mapping` embeds the report
decoder, `wii_raw_event`, `device_ioctl`, `wii_probe` and `wii_remove`
embed the driver callbacks over an explicit `DriverState`.
-/

def CIRC_BUFFER_SIZE : Nat := 1024

structure CircState where
  buf : Nat → Char
  head : Nat
  tail : Nat

/-- Both indices stay inside the backing array (true of every reachable state). -/
def CircInv (s : CircState) : Prop :=
  s.head < CIRC_BUFFER_SIZE ∧ s.tail < CIRC_BUFFER_SIZE

/-- Occupied byte count of the ring buffer, as computed in the source
(`(head - tail + CIRC_BUFFER_SIZE) % CIRC_BUFFER_SIZE` on ints). -/
def CircState.occupied (s : CircState) : Nat :=
  (s.head + CIRC_BUFFER_SIZE - s.tail) % CIRC_BUFFER_SIZE

/-- Embeds `circ_buffer_write`: store bytes one at a time, advancing `head`;
as soon as the advanced index would equal `tail` the loop breaks and the
rest of the data is dropped. -/
def circ_buffer_write (s : CircState) (data : List Char) : CircState :=
  match data with
  | [] => s
  | b :: rest =>
    if (s.head + 1) % CIRC_BUFFER_SIZE = s.tail then s
    else
      circ_buffer_write
        ⟨fun j => if j = s.head then b else s.buf j,
         (s.head + 1) % CIRC_BUFFER_SIZE, s.tail⟩ rest

/-- Embeds the copy loop of `device_read`: while bytes remain to be copied
and the buffer is nonempty, copy one byte to the user buffer at offset
`copied` (which fails when `fault copied` is true, returning `-EFAULT` with
`tail` left at the failing byte) and advance `tail`.  The returned list is
what actually reached the user buffer. -/
def read_loop (s : CircState) (remaining copied : Nat) (fault : Nat → Bool) :
    Int × List Char × CircState :=
  match remaining with
  | 0 => (Int.ofNat copied, [], s)
  | r + 1 =>
    if s.tail = s.head then (Int.ofNat copied, [], s)
    else if fault copied then (-14, [], s)
    else
      let out := read_loop ⟨s.buf, s.head, (s.tail + 1) % CIRC_BUFFER_SIZE⟩ r
        (copied + 1) fault
      (out.1, s.buf s.tail :: out.2.1, out.2.2)

/-- Embeds `device_read` on the circular-buffer state: return value is the
byte count (or `-EFAULT`), together with the bytes delivered to the user and
the final buffer state. -/
def device_read (s : CircState) (count : Nat) (fault : Nat → Bool) :
    Int × List Char × CircState :=
  read_loop s count 0 fault

/-- A user buffer whose pages are all resident: `copy_to_user` never fails. -/
def noFault : Nat → Bool := fun _ => false

/-- Abstraction: the logical byte content of the ring buffer, oldest first. -/
def contents (s : CircState) : List Char :=
  (List.range s.occupied).map (fun i => s.buf ((s.tail + i) % CIRC_BUFFER_SIZE))

/-- The buffer at module init: `head = tail = 0`, storage zeroed. -/
def initCirc : CircState := ⟨fun _ => Char.ofNat 0, 0, 0⟩

/-- An interleaving step on the ring buffer: a producer write or a consumer
read (with its `copy_to_user` fault oracle). -/
inductive BufOp where
  | write (data : List Char)
  | read (count : Nat) (fault : Nat → Bool)

def applyBufOp (s : CircState) : BufOp → CircState
  | .write d => circ_buffer_write s d
  | .read c f => (device_read s c f).2.2

def runBufOps (ops : List BufOp) : CircState :=
  ops.foldl applyBufOp initCirc

/-- A sequence of producer writes. -/
def writeAll (s : CircState) (ws : List (List Char)) : CircState :=
  ws.foldl circ_buffer_write s

/-- A sequence of consumer reads (no access faults), returning the chunk
each read delivered. -/
def readSeq (s : CircState) (cs : List Nat) : List (List Char) × CircState :=
  match cs with
  | [] => ([], s)
  | c :: rest =>
    let o := device_read s c noFault
    let o2 := readSeq o.2.2 rest
    (o.2.1 :: o2.1, o2.2)

/-- The decoder's straight-line `if (byte & mask) len += snprintf(.., tok)`
steps, run in order: each step appends its token text when its bit test
holds. -/
def appendTokens (s : List Char) (toks : List (Bool × List Char)) : List Char :=
  match toks with
  | [] => s
  | (c, t) :: rest => appendTokens (if c then s ++ t else s) rest

/-- The decoder's bit tests in source order, paired with the exact token
text each one writes.  The trailing space is part of the token in the
source; `Dpad_Left` and `A` are written without one. -/
def buttonChecks (btn_byte1 btn_byte2 : Nat) : List (Bool × List Char) :=
  [(btn_byte1 &&& 0x01 != 0, "Dpad_Left".data),
   (btn_byte1 &&& 0x02 != 0, "Dpad_Right ".data),
   (btn_byte1 &&& 0x04 != 0, "Dpad_Down ".data),
   (btn_byte1 &&& 0x08 != 0, "Dpad_Up ".data),
   (btn_byte1 &&& 0x10 != 0, "Plus ".data),
   (btn_byte2 &&& 0x10 != 0, "Minus ".data),
   (btn_byte2 &&& 0x80 != 0, "Home ".data),
   (btn_byte2 &&& 0x01 != 0, "2 ".data),
   (btn_byte2 &&& 0x02 != 0, "1 ".data),
   (btn_byte2 &&& 0x04 != 0, "B ".data),
   (btn_byte2 &&& 0x08 != 0, "A".data)]

/-- The decoder's last lines: the `len == 0` sentinel check (which can
never fire, `len` already counts the `Report: ID=` header) and the
`len < sizeof(mapping_output) - 1` guard before the final newline. -/
def finishLine (s : List Char) : List Char :=
  let s := if s.length = 0 then "No buttons pressed".data else s
  if s.length < 255 then s ++ "\n".data else s

/-- Embeds `perform_input_mapping` as a pure decoder: a report shorter than
3 bytes yields nothing; otherwise the event text is built exactly as the
chain of `snprintf` appends does. -/
def perform_input_mapping (data : List Nat) : Option (List Char) :=
  match data with
  | report_id :: btn_byte1 :: btn_byte2 :: _ =>
    some (finishLine (appendTokens
      ("Report: ID=".data ++ (Nat.repr report_id).data ++ ", ".data)
      (buttonChecks btn_byte1 btn_byte2)))
  | _ => none

/-- The tokens of exactly the set bits, in the decoder's fixed order. -/
def selectedTokens (btn_byte1 btn_byte2 : Nat) : List (List Char) :=
  ((buttonChecks btn_byte1 btn_byte2).filter (fun p => p.1)).map (fun p => p.2)

/-- The driver's global mutable state: the circular buffer, the connection
flag, the cached battery level (`-1` = unknown), whether `wii_hid_dev` is
non-NULL, and the commands sent to the transport layer via
`hid_hw_raw_request` (a model of the outbound side). -/
structure DriverState where
  circ : CircState
  wii_connected : Bool
  wii_last_battery : Int
  wii_hid_dev : Bool
  sent : List (List Nat)

def initDriver : DriverState :=
  { circ := initCirc, wii_connected := false, wii_last_battery := -1,
    wii_hid_dev := false, sent := [] }

/-- Embeds `wii_raw_event`: a report whose first byte is `0x20` with at
least 2 bytes caches `data[1]` as the battery level and writes the
`Battery:` line; every other report goes through `perform_input_mapping`
(which writes nothing when the report is shorter than 3 bytes). -/
def wii_raw_event (st : DriverState) (data : List Nat) : DriverState :=
  match data with
  | d0 :: rest =>
    if d0 = 0x20 then
      match rest with
      | d1 :: _ =>
        { st with
          circ := circ_buffer_write st.circ
            ("Battery: ".data ++ (Nat.repr d1).data ++ "\n".data),
          wii_last_battery := Int.ofNat d1 }
      | [] => st
    else
      match perform_input_mapping (d0 :: rest) with
      | some ev => { st with circ := circ_buffer_write st.circ ev }
      | none => st
  | [] =>
    match perform_input_mapping [] with
    | some ev => { st with circ := circ_buffer_write st.circ ev }
    | none => st

/-- The ioctl command number `_IO` builds from type `W`, nr 1. -/
def WIIMOTE_IOCTL_REQUEST_STATUS : Nat := 0x5701

/-- Embeds `device_ioctl`.  `transport_ret` is the value
`hid_hw_raw_request` returns when the command is actually sent (the
transport layer is external).  Returns the ioctl result and the new state;
sending appends the 2-byte command to `sent`. -/
def device_ioctl (st : DriverState) (cmd : Nat) (transport_ret : Int) :
    Int × DriverState :=
  if cmd = WIIMOTE_IOCTL_REQUEST_STATUS then
    if st.wii_hid_dev then
      (transport_ret, { st with sent := st.sent ++ [[0x15, 0x00]] })
    else
      (-19, st)
  else
    (-25, st)

/-- Embeds `wii_probe`; `parse_ret` and `start_ret` are the results of
`hid_parse` and `hid_hw_start` (external). -/
def wii_probe (st : DriverState) (parse_ret start_ret : Int) :
    Int × DriverState :=
  if parse_ret ≠ 0 then (parse_ret, st)
  else if start_ret ≠ 0 then (start_ret, st)
  else (0, { st with wii_hid_dev := true, wii_connected := true })

/-- Embeds `wii_remove`. -/
def wii_remove (st : DriverState) : DriverState :=
  { st with wii_hid_dev := false, wii_connected := false }

/-- One externally triggered driver event.  Report bytes come from the
transport layer as `u8`, hence `Fin 256`. -/
inductive DriverOp where
  | probe (parse_ret start_ret : Int)
  | remove
  | report (data : List (Fin 256))
  | ioctl (cmd : Nat) (transport_ret : Int)
  | read (count : Nat) (fault : Nat → Bool)

def applyDriverOp (st : DriverState) : DriverOp → DriverState
  | .probe p q => (wii_probe st p q).2
  | .remove => wii_remove st
  | .report d => wii_raw_event st (d.map Fin.val)
  | .ioctl c t => (device_ioctl st c t).2
  | .read n f => { st with circ := (device_read st.circ n f).2.2 }

def runDriver (ops : List DriverOp) : DriverState :=
  ops.foldl applyDriverOp initDriver

/-- A driver state reachable from module init by a sequence of events. -/
def ReachableD (st : DriverState) : Prop :=
  ∃ ops : List DriverOp, st = runDriver ops

/-- A freshly probed driver: connected, battery unknown, buffer empty. -/
def connectedDriver : DriverState :=
  { circ := initCirc, wii_connected := true, wii_last_battery := -1,
    wii_hid_dev := true, sent := [] }

/-! ## Ring buffer lemmas -/

theorem occupied_lt (s : CircState) : s.occupied < CIRC_BUFFER_SIZE :=
  Nat.mod_lt _ (by decide)

theorem contents_length (s : CircState) : (contents s).length = s.occupied := by
  simp [contents]

theorem empty_iff (s : CircState) (h : CircInv s) :
    s.tail = s.head ↔ s.occupied = 0 := by
  obtain ⟨h1, h2⟩ := h
  unfold CIRC_BUFFER_SIZE at h1 h2
  unfold CircState.occupied CIRC_BUFFER_SIZE
  omega

theorem full_iff (s : CircState) (h : CircInv s) :
    (s.head + 1) % CIRC_BUFFER_SIZE = s.tail ↔
      s.occupied = CIRC_BUFFER_SIZE - 1 := by
  obtain ⟨h1, h2⟩ := h
  unfold CIRC_BUFFER_SIZE at h1 h2
  unfold CircState.occupied CIRC_BUFFER_SIZE
  omega

theorem contents_write_cons (s : CircState) (b : Char) (h : CircInv s)
    (hnf : (s.head + 1) % CIRC_BUFFER_SIZE ≠ s.tail) :
    contents ⟨fun j => if j = s.head then b else s.buf j,
      (s.head + 1) % CIRC_BUFFER_SIZE, s.tail⟩ = contents s ++ [b] := by
  obtain ⟨h1, h2⟩ := h
  have hocc :
      (⟨fun j => if j = s.head then b else s.buf j,
        (s.head + 1) % CIRC_BUFFER_SIZE, s.tail⟩ : CircState).occupied
        = s.occupied + 1 := by
    show ((s.head + 1) % CIRC_BUFFER_SIZE + CIRC_BUFFER_SIZE - s.tail)
          % CIRC_BUFFER_SIZE
        = (s.head + CIRC_BUFFER_SIZE - s.tail) % CIRC_BUFFER_SIZE + 1
    unfold CIRC_BUFFER_SIZE at *
    omega
  simp only [contents, hocc, List.range_succ, List.map_append, List.map_cons,
    List.map_nil]
  congr 1
  · apply List.map_congr_left
    intro i hi
    rw [List.mem_range] at hi
    have hne : (s.tail + i) % CIRC_BUFFER_SIZE ≠ s.head := by
      unfold CircState.occupied CIRC_BUFFER_SIZE at *
      omega
    simp [hne]
  · have heq : (s.tail + s.occupied) % CIRC_BUFFER_SIZE = s.head := by
      unfold CircState.occupied CIRC_BUFFER_SIZE at *
      omega
    simp [heq]

theorem circ_buffer_write_spec (data : List Char) (s : CircState)
    (h : CircInv s) :
    CircInv (circ_buffer_write s data) ∧
    contents (circ_buffer_write s data)
      = contents s ++ data.take (CIRC_BUFFER_SIZE - 1 - s.occupied) := by
  induction data generalizing s with
  | nil => simp [circ_buffer_write, h]
  | cons b rest ih =>
    by_cases hfull : (s.head + 1) % CIRC_BUFFER_SIZE = s.tail
    · have hocc : s.occupied = CIRC_BUFFER_SIZE - 1 := (full_iff s h).mp hfull
      simp [circ_buffer_write, hfull, hocc, h]
    · set s2 : CircState :=
        ⟨fun j => if j = s.head then b else s.buf j,
         (s.head + 1) % CIRC_BUFFER_SIZE, s.tail⟩ with hs2
      have h2 : CircInv s2 := ⟨Nat.mod_lt _ (by decide), h.2⟩
      have hocc2 : s2.occupied = s.occupied + 1 := by
        obtain ⟨h1, h2'⟩ := h
        rw [hs2]
        show ((s.head + 1) % CIRC_BUFFER_SIZE + CIRC_BUFFER_SIZE - s.tail)
              % CIRC_BUFFER_SIZE
            = (s.head + CIRC_BUFFER_SIZE - s.tail) % CIRC_BUFFER_SIZE + 1
        unfold CIRC_BUFFER_SIZE at *
        omega
      obtain ⟨ih1, ih2⟩ := ih s2 h2
      have hw : circ_buffer_write s (b :: rest) = circ_buffer_write s2 rest := by
        simp [circ_buffer_write, hfull, hs2]
      refine ⟨by rw [hw]; exact ih1, ?_⟩
      rw [hw, ih2, hs2] at *
      rw [contents_write_cons s b h hfull, hocc2]
      have hlt : s.occupied < CIRC_BUFFER_SIZE - 1 := by
        have := occupied_lt s
        have hne : s.occupied ≠ CIRC_BUFFER_SIZE - 1 :=
          fun hc => hfull ((full_iff s h).mpr hc)
        omega
      have harith : CIRC_BUFFER_SIZE - 1 - s.occupied
          = (CIRC_BUFFER_SIZE - 1 - (s.occupied + 1)) + 1 := by omega
      rw [harith, List.take_succ_cons, List.append_assoc]
      simp

theorem contents_read_step (s : CircState) (h : CircInv s)
    (hne : s.tail ≠ s.head) :
    contents s
      = s.buf s.tail ::
        contents ⟨s.buf, s.head, (s.tail + 1) % CIRC_BUFFER_SIZE⟩ := by
  obtain ⟨h1, h2⟩ := h
  have hocc : s.occupied
      = (⟨s.buf, s.head, (s.tail + 1) % CIRC_BUFFER_SIZE⟩ : CircState).occupied
        + 1 := by
    show (s.head + CIRC_BUFFER_SIZE - s.tail) % CIRC_BUFFER_SIZE
        = (s.head + CIRC_BUFFER_SIZE - (s.tail + 1) % CIRC_BUFFER_SIZE)
            % CIRC_BUFFER_SIZE + 1
    unfold CIRC_BUFFER_SIZE at *
    omega
  simp only [contents, hocc, List.range_succ_eq_map, List.map_cons,
    List.map_map]
  congr 1
  · have : s.tail % CIRC_BUFFER_SIZE = s.tail := Nat.mod_eq_of_lt h2
    simp [this]
  · apply List.map_congr_left
    intro i _
    have : (s.tail + (i + 1)) % CIRC_BUFFER_SIZE
        = ((s.tail + 1) % CIRC_BUFFER_SIZE + i) % CIRC_BUFFER_SIZE := by
      unfold CIRC_BUFFER_SIZE
      omega
    simp [Function.comp, Nat.succ_eq_add_one, Nat.add_comm i 1, ← this]

theorem read_loop_inv (r : Nat) (s : CircState) (copied : Nat)
    (fault : Nat → Bool) (h : CircInv s) :
    CircInv (read_loop s r copied fault).2.2 := by
  induction r generalizing s copied with
  | zero => simpa [read_loop] using h
  | succ r ih =>
    rw [read_loop]
    by_cases he : s.tail = s.head
    · simpa [he] using h
    · by_cases hf : fault copied
      · simpa [he, hf] using h
      · simpa [he, hf] using
          ih ⟨s.buf, s.head, (s.tail + 1) % CIRC_BUFFER_SIZE⟩ (copied + 1)
            ⟨h.1, Nat.mod_lt _ (by decide)⟩

theorem read_loop_spec (r : Nat) (s : CircState) (copied : Nat)
    (h : CircInv s) :
    (read_loop s r copied noFault).2.1 = (contents s).take r ∧
    contents (read_loop s r copied noFault).2.2 = (contents s).drop r ∧
    (read_loop s r copied noFault).1
      = Int.ofNat (copied + min r (contents s).length) := by
  induction r generalizing s copied with
  | zero => simp [read_loop]
  | succ r ih =>
    rw [read_loop]
    by_cases he : s.tail = s.head
    · have hocc : s.occupied = 0 := (empty_iff s h).mp he
      have hc : contents s = [] := by
        rw [← List.length_eq_zero, contents_length]
        exact hocc
      simp [he, hc]
    · have hf : noFault copied = false := rfl
      set s2 : CircState := ⟨s.buf, s.head, (s.tail + 1) % CIRC_BUFFER_SIZE⟩
        with hs2
      have h2 : CircInv s2 := ⟨h.1, Nat.mod_lt _ (by decide)⟩
      have hcs : contents s = s.buf s.tail :: contents s2 :=
        contents_read_step s h he
      obtain ⟨ih1, ih2, ih3⟩ := ih s2 (copied + 1) h2
      simp only [he, hf, if_false, if_neg, ite_false, Bool.false_eq_true]
      refine ⟨?_, ?_, ?_⟩
      · simp [hcs, ih1]
      · simp [hcs, ih2]
      · rw [ih3, hcs]
        simp only [List.length_cons]
        congr 1
        omega

theorem read_loop_fault_spec (i : Nat) (r : Nat) (s : CircState)
    (copied : Nat) (fault : Nat → Bool) (h : CircInv s)
    (hok : ∀ j, j < i → fault (copied + j) = false)
    (hf : fault (copied + i) = true)
    (hir : i < r) (hocc : i < s.occupied) :
    (read_loop s r copied fault).1 = -14 ∧
    (read_loop s r copied fault).2.1 = (contents s).take i ∧
    contents (read_loop s r copied fault).2.2 = (contents s).drop i := by
  induction i generalizing s copied r with
  | zero =>
    obtain ⟨r', rfl⟩ : ∃ r', r = r' + 1 := ⟨r - 1, by omega⟩
    have hne : s.tail ≠ s.head := by
      intro hc
      rw [(empty_iff s h).mp hc] at hocc
      omega
    have hft : fault copied = true := by simpa using hf
    rw [read_loop]
    simp [hne, hft]
  | succ i ih =>
    obtain ⟨r', rfl⟩ : ∃ r', r = r' + 1 := ⟨r - 1, by omega⟩
    have hne : s.tail ≠ s.head := by
      intro hc
      rw [(empty_iff s h).mp hc] at hocc
      omega
    have hf0 : fault copied = false := by simpa using hok 0 (by omega)
    set s2 : CircState := ⟨s.buf, s.head, (s.tail + 1) % CIRC_BUFFER_SIZE⟩
      with hs2
    have h2 : CircInv s2 := ⟨h.1, Nat.mod_lt _ (by decide)⟩
    have hocc2 : i < s2.occupied := by
      have hstep : s.occupied = s2.occupied + 1 := by
        rw [hs2]
        show (s.head + CIRC_BUFFER_SIZE - s.tail) % CIRC_BUFFER_SIZE
            = (s.head + CIRC_BUFFER_SIZE - (s.tail + 1) % CIRC_BUFFER_SIZE)
                % CIRC_BUFFER_SIZE + 1
        have h1 := h.1
        have h2' := h.2
        unfold CIRC_BUFFER_SIZE at *
        omega
      omega
    have hok2 : ∀ j, j < i → fault (copied + 1 + j) = false := by
      intro j hj
      have := hok (j + 1) (by omega)
      simpa [Nat.add_assoc, Nat.add_comm 1 j] using this
    have hf2 : fault (copied + 1 + i) = true := by
      have : copied + 1 + i = copied + (i + 1) := by omega
      rw [this]
      exact hf
    obtain ⟨ih1, ih2, ih3⟩ := ih r' s2 (copied + 1) h2 hok2 hf2 (by omega) hocc2
    have hcs : contents s = s.buf s.tail :: contents s2 :=
      contents_read_step s h hne
    rw [read_loop]
    simp only [hne, hf0, if_false, ite_false, Bool.false_eq_true]
    refine ⟨ih1, ?_, ?_⟩
    · simp [hcs, ih2]
    · simp [hcs, ih3]

theorem initCirc_inv : CircInv initCirc := ⟨by decide, by decide⟩

theorem contents_init : contents initCirc = [] := rfl

theorem device_read_empty (s : CircState) (c : Nat) (h : s.tail = s.head) :
    device_read s c noFault = (Int.ofNat 0, [], s) := by
  cases c <;> simp [device_read, read_loop, h]

theorem writeAll_spec (ws : List (List Char)) (s : CircState) (h : CircInv s)
    (hfit : (contents s).length + ws.flatten.length ≤ CIRC_BUFFER_SIZE - 1) :
    CircInv (writeAll s ws) ∧ contents (writeAll s ws) = contents s ++ ws.flatten := by
  induction ws generalizing s with
  | nil => simp [writeAll, h]
  | cons w rest ih =>
    have hw := circ_buffer_write_spec w s h
    obtain ⟨hw1, hw2⟩ := hw
    have hlen : (contents s).length = s.occupied := contents_length s
    have hjoin : ((w :: rest).flatten).length = w.length + rest.flatten.length := by
      simp
    have htake : w.take (CIRC_BUFFER_SIZE - 1 - s.occupied) = w := by
      apply List.take_of_length_le
      omega
    rw [htake] at hw2
    have hfit2 : (contents (circ_buffer_write s w)).length + rest.flatten.length
        ≤ CIRC_BUFFER_SIZE - 1 := by
      rw [hw2]
      simp only [List.length_append]
      omega
    have hstep : writeAll s (w :: rest) = writeAll (circ_buffer_write s w) rest := by
      simp [writeAll]
    obtain ⟨ih1, ih2⟩ := ih (circ_buffer_write s w) hw1 hfit2
    rw [hstep]
    refine ⟨ih1, ?_⟩
    rw [ih2, hw2]
    simp

theorem readSeq_spec (cs : List Nat) (s : CircState) (h : CircInv s) :
    ((readSeq s cs).1).flatten = (contents s).take cs.sum ∧
    contents (readSeq s cs).2 = (contents s).drop cs.sum ∧
    CircInv (readSeq s cs).2 ∧
    List.Forall₂ (fun chunk c => List.length chunk ≤ c) (readSeq s cs).1 cs := by
  induction cs generalizing s with
  | nil => simpa [readSeq] using h
  | cons c rest ih =>
    obtain ⟨h1, h2, h3⟩ := read_loop_spec c s 0 h
    have h1' : (device_read s c noFault).2.1 = (contents s).take c := h1
    have h2' : contents (device_read s c noFault).2.2 = (contents s).drop c := h2
    have hinv : CircInv (device_read s c noFault).2.2 := read_loop_inv c s 0 noFault h
    obtain ⟨ih1, ih2, ih3, ih4⟩ := ih (device_read s c noFault).2.2 hinv
    have hstep : readSeq s (c :: rest)
        = ((device_read s c noFault).2.1 :: (readSeq (device_read s c noFault).2.2 rest).1,
           (readSeq (device_read s c noFault).2.2 rest).2) := rfl
    rw [hstep]
    refine ⟨?_, ?_, ih3, ?_⟩
    · simp only [List.flatten_cons, List.sum_cons]
      rw [ih1, h2', List.take_add, h1']
    · rw [ih2, h2', List.sum_cons, List.drop_drop]
    · refine List.Forall₂.cons ?_ ih4
      rw [h1', List.length_take]
      exact Nat.min_le_left _ _

/-! ## Decoder lemmas -/

theorem appendTokens_eq (toks : List (Bool × List Char)) (s : List Char) :
    appendTokens s toks
      = s ++ ((toks.filter (fun p => p.1)).map (fun p => p.2)).flatten := by
  induction toks generalizing s with
  | nil => simp [appendTokens]
  | cons p rest ih =>
    obtain ⟨c, t⟩ := p
    cases c with
    | false => simp [appendTokens, List.filter_cons, ih]
    | true => simp [appendTokens, List.filter_cons, ih]

theorem selected_flatten_len (toks : List (Bool × List Char)) :
    ((((toks.filter (fun p => p.1)).map (fun p => p.2)).flatten)).length
      ≤ (((toks.map (fun p => p.2)).flatten)).length := by
  induction toks with
  | nil => simp
  | cons p rest ih =>
    obtain ⟨c, t⟩ := p
    cases c with
    | false =>
      simp only [List.filter_cons, List.map_cons, List.flatten_cons,
        List.length_append, Bool.false_eq_true, if_false, ite_false]
      omega
    | true =>
      simp only [List.filter_cons, List.map_cons, List.flatten_cons,
        List.length_append, if_true, ite_true]
      omega

set_option maxRecDepth 8192 in
theorem repr_len_le_three :
    ∀ id : Nat, id < 256 → (Nat.repr id).data.length ≤ 3 := by decide

theorem finishLine_eq (s : List Char) (h0 : s.length ≠ 0)
    (h255 : s.length < 255) : finishLine s = s ++ "\n".data := by
  simp only [finishLine]
  rw [if_neg h0, if_pos h255]

theorem perform_input_mapping_eq (report_id btn_byte1 btn_byte2 : Nat)
    (rest : List Nat) (hid : report_id < 256) :
    perform_input_mapping (report_id :: btn_byte1 :: btn_byte2 :: rest)
      = some ("Report: ID=".data ++ (Nat.repr report_id).data ++ ", ".data
          ++ (selectedTokens btn_byte1 btn_byte2).flatten ++ "\n".data) := by
  have hrepr : (Nat.repr report_id).data.length ≤ 3 :=
    repr_len_le_three report_id hid
  have hall :
      ((((buttonChecks btn_byte1 btn_byte2).map (fun p => p.2)).flatten)).length
        = 61 := rfl
  have hsel :
      ((((buttonChecks btn_byte1 btn_byte2).filter (fun p => p.1)).map
        (fun p => p.2)).flatten).length ≤ 61 := by
    have := selected_flatten_len (buttonChecks btn_byte1 btn_byte2)
    omega
  simp only [perform_input_mapping]
  rw [appendTokens_eq, finishLine_eq]
  · simp [selectedTokens, List.append_assoc]
  · simp only [List.length_append, List.length_cons, List.length_nil]
    omega
  · simp only [List.length_append, List.length_cons, List.length_nil]
    omega

/-! ## Driver state lemmas -/

theorem wii_raw_event_fields (st : DriverState) (data : List Nat) :
    (wii_raw_event st data).wii_connected = st.wii_connected ∧
    (wii_raw_event st data).wii_hid_dev = st.wii_hid_dev ∧
    (wii_raw_event st data).sent = st.sent := by
  unfold wii_raw_event
  cases data with
  | nil => simp [perform_input_mapping]
  | cons d0 rest =>
    by_cases h0 : d0 = 0x20
    · cases rest <;> simp [h0]
    · cases h : perform_input_mapping (d0 :: rest) <;> simp [h0, h]

theorem applyDriverOp_sync (st : DriverState) (op : DriverOp)
    (h : st.wii_hid_dev = st.wii_connected) :
    (applyDriverOp st op).wii_hid_dev = (applyDriverOp st op).wii_connected := by
  cases op with
  | probe p q =>
    by_cases hp : p = 0 <;> by_cases hq : q = 0 <;>
      simp [applyDriverOp, wii_probe, hp, hq, h]
  | remove => simp [applyDriverOp, wii_remove]
  | report d =>
    obtain ⟨h1, h2, _⟩ := wii_raw_event_fields st (d.map Fin.val)
    simp [applyDriverOp, h1, h2, h]
  | ioctl c t =>
    by_cases hc : c = WIIMOTE_IOCTL_REQUEST_STATUS <;>
      cases hd : st.wii_hid_dev <;>
        simp_all [applyDriverOp, device_ioctl]
  | read n f => simpa [applyDriverOp] using h

theorem runDriver_sync (ops : List DriverOp) (st : DriverState)
    (h : st.wii_hid_dev = st.wii_connected) :
    (ops.foldl applyDriverOp st).wii_hid_dev
      = (ops.foldl applyDriverOp st).wii_connected := by
  induction ops generalizing st with
  | nil => simpa using h
  | cons op rest ih =>
    rw [List.foldl_cons]
    exact ih (applyDriverOp st op) (applyDriverOp_sync st op h)

theorem reachable_sync (st : DriverState) (h : ReachableD st) :
    st.wii_hid_dev = st.wii_connected := by
  obtain ⟨ops, rfl⟩ := h
  exact runDriver_sync ops initDriver rfl

theorem applyDriverOp_battery (st : DriverState) (op : DriverOp)
    (h : st.wii_last_battery = -1 ∨
      (0 ≤ st.wii_last_battery ∧ st.wii_last_battery ≤ 255)) :
    (applyDriverOp st op).wii_last_battery = -1 ∨
      (0 ≤ (applyDriverOp st op).wii_last_battery ∧
        (applyDriverOp st op).wii_last_battery ≤ 255) := by
  cases op with
  | probe p q =>
    by_cases hp : p = 0 <;> by_cases hq : q = 0 <;>
      simp [applyDriverOp, wii_probe, hp, hq, h]
  | remove => simpa [applyDriverOp, wii_remove] using h
  | report d =>
    match d with
    | [] => simpa [applyDriverOp, wii_raw_event, perform_input_mapping] using h
    | a :: tl =>
      by_cases h0 : a.val = 0x20
      · match tl with
        | [] => simpa [applyDriverOp, wii_raw_event, h0] using h
        | b :: _ =>
          have hb : b.val ≤ 255 := Nat.lt_succ_iff.mp b.isLt
          right
          simp [applyDriverOp, wii_raw_event, h0]
          omega
      · have hpm := perform_input_mapping (a.val :: tl.map Fin.val)
        cases hev : perform_input_mapping (a.val :: tl.map Fin.val) <;>
          simpa [applyDriverOp, wii_raw_event, h0, hev] using h
  | ioctl c t =>
    by_cases hc : c = WIIMOTE_IOCTL_REQUEST_STATUS <;>
      cases hd : st.wii_hid_dev <;>
        simp_all [applyDriverOp, device_ioctl]
  | read n f => simpa [applyDriverOp] using h

theorem runDriver_battery (ops : List DriverOp) (st : DriverState)
    (h : st.wii_last_battery = -1 ∨
      (0 ≤ st.wii_last_battery ∧ st.wii_last_battery ≤ 255)) :
    (ops.foldl applyDriverOp st).wii_last_battery = -1 ∨
      (0 ≤ (ops.foldl applyDriverOp st).wii_last_battery ∧
        (ops.foldl applyDriverOp st).wii_last_battery ≤ 255) := by
  induction ops generalizing st with
  | nil => simpa using h
  | cons op rest ih =>
    rw [List.foldl_cons]
    exact ih (applyDriverOp st op) (applyDriverOp_battery st op h)

theorem runBufOps_inv_aux (ops : List BufOp) (s : CircState) (h : CircInv s) :
    CircInv (ops.foldl applyBufOp s) := by
  induction ops generalizing s with
  | nil => simpa using h
  | cons op rest ih =>
    rw [List.foldl_cons]
    apply ih
    cases op with
    | write d => exact (circ_buffer_write_spec d s h).1
    | read c f => exact read_loop_inv c s 0 f h

/-! ## Claim theorems -/

/-- C1: starting from the empty buffer, after every sequence of interleaved
`circ_buffer_write` and `device_read` operations the write index (`head`)
and the read index (`tail`) lie in `[0, 1024)`, and the occupied byte
count `(head - tail + 1024) % 1024` never exceeds `1023`. -/
theorem C1_ring_indices_and_occupancy (ops : List BufOp) :
    (runBufOps ops).head < 1024 ∧ (runBufOps ops).tail < 1024 ∧
    (((runBufOps ops).head : Int) - (runBufOps ops).tail + 1024) % 1024
      ≤ 1023 := by
  unfold runBufOps
  obtain ⟨h1, h2⟩ := runBufOps_inv_aux ops initCirc initCirc_inv
  unfold CIRC_BUFFER_SIZE at h1 h2
  refine ⟨h1, h2, ?_⟩
  omega

/-- C2: after writes `w1, w2, …` none of which drops bytes, reads deliver
the stored bytes oldest-first in exactly the concatenation order
`w1 ++ w2 ++ …`; each read returns at most the requested count, and a read
of an empty buffer returns zero bytes, not an error. -/
theorem C2_fifo_order (ws : List (List Char)) (cs : List Nat)
    (hfit : (ws.flatten).length ≤ CIRC_BUFFER_SIZE - 1) :
    ((readSeq (writeAll initCirc ws) cs).1).flatten
        = (ws.flatten).take cs.sum ∧
    List.Forall₂ (fun chunk c => List.length chunk ≤ c)
      (readSeq (writeAll initCirc ws) cs).1 cs ∧
    (∀ (t : CircState) (c : Nat), t.tail = t.head →
      device_read t c noFault = (Int.ofNat 0, [], t)) := by
  have hfit' : (contents initCirc).length + ws.flatten.length
      ≤ CIRC_BUFFER_SIZE - 1 := by
    rw [contents_init]
    simpa using hfit
  obtain ⟨hw1, hw2⟩ := writeAll_spec ws initCirc initCirc_inv hfit'
  rw [contents_init, List.nil_append] at hw2
  obtain ⟨hr1, hr2, hr3, hr4⟩ := readSeq_spec cs (writeAll initCirc ws) hw1
  rw [hw2] at hr1
  exact ⟨hr1, hr4, fun t c ht => device_read_empty t c ht⟩

/-- Witness for C2 at `ws = [[a], [b]]`, `cs = [1, 1]`. -/
theorem C2_fifo_order_witness :
    (([['a'], ['b']] : List (List Char)).flatten.length
        ≤ CIRC_BUFFER_SIZE - 1) ∧
    (((readSeq (writeAll initCirc [['a'], ['b']]) [1, 1]).1).flatten
        = (([['a'], ['b']] : List (List Char)).flatten).take
            ([1, 1] : List Nat).sum ∧
     List.Forall₂ (fun chunk c => List.length chunk ≤ c)
       (readSeq (writeAll initCirc [['a'], ['b']]) [1, 1]).1 [1, 1] ∧
     (∀ (t : CircState) (c : Nat), t.tail = t.head →
       device_read t c noFault = (Int.ofNat 0, [], t))) :=
  ⟨by decide, C2_fifo_order [['a'], ['b']] [1, 1] (by decide)⟩

/-- C3: a write of more bytes than the remaining free space stores exactly
the longest prefix that fits (the loop stops when advancing the write
index would make it equal the read index), silently drops the suffix,
leaves the previously stored bytes unchanged, and a subsequent read
returns exactly the stored prefix, never the dropped suffix. -/
theorem C3_overflow_drop (s : CircState) (data : List Char)
    (h : CircInv s)
    (hover : CIRC_BUFFER_SIZE - 1 - s.occupied < data.length) :
    contents (circ_buffer_write s data)
        = contents s ++ data.take (CIRC_BUFFER_SIZE - 1 - s.occupied) ∧
    ∀ c : Nat,
      (device_read (circ_buffer_write s data) c noFault).2.1
        = (contents s
            ++ data.take (CIRC_BUFFER_SIZE - 1 - s.occupied)).take c := by
  obtain ⟨hw1, hw2⟩ := circ_buffer_write_spec data s h
  refine ⟨hw2, fun c => ?_⟩
  have hr := (read_loop_spec c (circ_buffer_write s data) 0 hw1).1
  have hr' : (device_read (circ_buffer_write s data) c noFault).2.1
      = (contents (circ_buffer_write s data)).take c := hr
  rw [hr', hw2]

/-- Witness for C3: one extra byte on a buffer already holding 1023. -/
theorem C3_overflow_drop_witness :
    CircInv ⟨fun _ => 'x', 1023, 0⟩ ∧
    CIRC_BUFFER_SIZE - 1 - (⟨fun _ => 'x', 1023, 0⟩ : CircState).occupied
        < (['y'] : List Char).length ∧
    (contents (circ_buffer_write ⟨fun _ => 'x', 1023, 0⟩ ['y'])
        = contents ⟨fun _ => 'x', 1023, 0⟩
          ++ (['y'] : List Char).take
            (CIRC_BUFFER_SIZE - 1
              - (⟨fun _ => 'x', 1023, 0⟩ : CircState).occupied) ∧
     ∀ c : Nat,
       (device_read (circ_buffer_write ⟨fun _ => 'x', 1023, 0⟩ ['y']) c
         noFault).2.1
         = (contents ⟨fun _ => 'x', 1023, 0⟩
             ++ (['y'] : List Char).take
               (CIRC_BUFFER_SIZE - 1
                 - (⟨fun _ => 'x', 1023, 0⟩ : CircState).occupied)).take c) :=
  ⟨⟨by decide, by decide⟩, by decide,
   C3_overflow_drop ⟨fun _ => 'x', 1023, 0⟩ ['y'] ⟨by decide, by decide⟩
     (by decide)⟩

/-- C4 (code bug): the `No buttons pressed` sentinel never fires, because
the decoder checks `len == 0` only after `len` already counts the
`Report: ID=` header; a no-buttons report `[49, 0, 0]` therefore yields
`"Report: ID=49, \n"` instead of the sentinel line. -/
theorem C4_no_buttons_sentinel_dead :
    perform_input_mapping [49, 0, 0] = some ("Report: ID=49, \n".data) ∧
    perform_input_mapping [49, 0, 0] ≠ some ("No buttons pressed\n".data) := by
  decide

/-- C5 counterexample: with Dpad_Left and A pressed (`[49, 1, 8]`) the two
tokens are not single-space separated — the output reads `Dpad_LeftA`. -/
theorem C5_single_space_counterexample :
    perform_input_mapping [49, 1, 8]
        = some ("Report: ID=49, Dpad_LeftA\n".data) ∧
    perform_input_mapping [49, 1, 8]
        ≠ some ("Report: ID=49, Dpad_Left A\n".data) := by
  decide

/-- C5 (amended): for every report of length at least 3 with a non-empty
subset of the 11 defined bits set, the output is the `Report: ID=` header
followed by exactly the tokens of the set bits, in the fixed source order
(byte 1 bits 0..4, then byte 2 bits 4, 7, 0, 1, 2, 3), each token carrying
its own trailing space except `Dpad_Left` and `A` which have none, and a
final newline. -/
theorem C5_bit_to_token_fidelity (report_id btn_byte1 btn_byte2 : Nat)
    (rest : List Nat) (hid : report_id < 256)
    (hne : btn_byte1 &&& 0x1f ≠ 0 ∨ btn_byte2 &&& 0x9f ≠ 0) :
    perform_input_mapping (report_id :: btn_byte1 :: btn_byte2 :: rest)
      = some ("Report: ID=".data ++ (Nat.repr report_id).data ++ ", ".data
          ++ (selectedTokens btn_byte1 btn_byte2).flatten ++ "\n".data) :=
  perform_input_mapping_eq report_id btn_byte1 btn_byte2 rest hid

/-- Witness for C5 at report `[49, 1, 8]`. -/
theorem C5_bit_to_token_fidelity_witness :
    (49 : Nat) < 256 ∧
    ((1 : Nat) &&& 0x1f ≠ 0 ∨ (8 : Nat) &&& 0x9f ≠ 0) ∧
    perform_input_mapping [49, 1, 8]
      = some ("Report: ID=".data ++ (Nat.repr 49).data ++ ", ".data
          ++ (selectedTokens 1 8).flatten ++ "\n".data) :=
  ⟨by decide, by decide,
   C5_bit_to_token_fidelity 49 1 8 [] (by decide) (by decide)⟩

/-- C6: feeding the report `[0x31, 0x01, 0x08]` to the ingestion path and
then reading from the device yields exactly `"Report: ID=49, Dpad_LeftA\n"`. -/
theorem C6_end_to_end_button :
    (device_read (wii_raw_event initDriver [0x31, 0x01, 0x08]).circ 1024
      noFault).2.1 = "Report: ID=49, Dpad_LeftA\n".data := by
  decide

/-- C7: from a connected state with an empty buffer, the status ioctl
succeeds (returning the transport result, which is nonnegative when the
transport succeeds) and sends exactly one `[0x15, 0x00]` command; feeding
`[0x20, 42]` then caches battery 42 with the connection still up, and a
subsequent read yields exactly `"Battery: 42\n"`. -/
theorem C7_status_round_trip (st : DriverState) (r : Int)
    (hdev : st.wii_hid_dev = true) (hconn : st.wii_connected = true)
    (hempty : st.circ.tail = st.circ.head) (hinv : CircInv st.circ)
    (hr : 0 ≤ r) :
    (device_ioctl st WIIMOTE_IOCTL_REQUEST_STATUS r).1 = r ∧
    0 ≤ (device_ioctl st WIIMOTE_IOCTL_REQUEST_STATUS r).1 ∧
    (device_ioctl st WIIMOTE_IOCTL_REQUEST_STATUS r).2.sent
        = st.sent ++ [[0x15, 0x00]] ∧
    (wii_raw_event (device_ioctl st WIIMOTE_IOCTL_REQUEST_STATUS r).2
      [0x20, 42]).wii_connected = true ∧
    (wii_raw_event (device_ioctl st WIIMOTE_IOCTL_REQUEST_STATUS r).2
      [0x20, 42]).wii_last_battery = 42 ∧
    (device_read (wii_raw_event
        (device_ioctl st WIIMOTE_IOCTL_REQUEST_STATUS r).2
      [0x20, 42]).circ 1024 noFault).2.1 = "Battery: 42\n".data := by
  have hio : device_ioctl st WIIMOTE_IOCTL_REQUEST_STATUS r
      = (r, { st with sent := st.sent ++ [[0x15, 0x00]] }) := by
    simp [device_ioctl, hdev]
  have hev : wii_raw_event { st with sent := st.sent ++ [[0x15, 0x00]] }
      [0x20, 42]
      = { st with
          sent := st.sent ++ [[0x15, 0x00]],
          circ := circ_buffer_write st.circ
            ("Battery: ".data ++ (Nat.repr 42).data ++ "\n".data),
          wii_last_battery := Int.ofNat 42 } := by
    simp [wii_raw_event]
  have hempty' : contents st.circ = [] := by
    rw [← List.length_eq_zero, contents_length]
    exact (empty_iff st.circ hinv).mp hempty
  have hocc0 : st.circ.occupied = 0 := (empty_iff st.circ hinv).mp hempty
  obtain ⟨hw1, hw2⟩ := circ_buffer_write_spec
    ("Battery: ".data ++ (Nat.repr 42).data ++ "\n".data) st.circ hinv
  have htake : ("Battery: ".data ++ (Nat.repr 42).data
      ++ "\n".data).take (CIRC_BUFFER_SIZE - 1 - st.circ.occupied)
      = "Battery: ".data ++ (Nat.repr 42).data ++ "\n".data := by
    apply List.take_of_length_le
    rw [hocc0]
    decide
  rw [htake, hempty', List.nil_append] at hw2
  have hread := (read_loop_spec 1024 (circ_buffer_write st.circ
    ("Battery: ".data ++ (Nat.repr 42).data ++ "\n".data)) 0 hw1).1
  have hread' : (device_read (circ_buffer_write st.circ
      ("Battery: ".data ++ (Nat.repr 42).data ++ "\n".data)) 1024
        noFault).2.1
      = (contents (circ_buffer_write st.circ
          ("Battery: ".data ++ (Nat.repr 42).data ++ "\n".data))).take 1024
      := hread
  rw [hio]
  refine ⟨rfl, hr, rfl, ?_, ?_, ?_⟩
  · rw [hev]
    exact hconn
  · rw [hev]
    rfl
  · rw [hev]
    show (device_read (circ_buffer_write st.circ
        ("Battery: ".data ++ (Nat.repr 42).data ++ "\n".data)) 1024
          noFault).2.1 = "Battery: 42\n".data
    rw [hread', hw2]
    decide

/-- Witness for C7 from a freshly connected driver with transport result 0. -/
theorem C7_status_round_trip_witness :
    connectedDriver.wii_hid_dev = true ∧
    connectedDriver.wii_connected = true ∧
    connectedDriver.circ.tail = connectedDriver.circ.head ∧
    CircInv connectedDriver.circ ∧
    (0 : Int) ≤ 0 ∧
    ((device_ioctl connectedDriver WIIMOTE_IOCTL_REQUEST_STATUS 0).1 = 0 ∧
     0 ≤ (device_ioctl connectedDriver WIIMOTE_IOCTL_REQUEST_STATUS 0).1 ∧
     (device_ioctl connectedDriver WIIMOTE_IOCTL_REQUEST_STATUS 0).2.sent
        = connectedDriver.sent ++ [[0x15, 0x00]] ∧
     (wii_raw_event (device_ioctl connectedDriver
        WIIMOTE_IOCTL_REQUEST_STATUS 0).2 [0x20, 42]).wii_connected = true ∧
     (wii_raw_event (device_ioctl connectedDriver
        WIIMOTE_IOCTL_REQUEST_STATUS 0).2 [0x20, 42]).wii_last_battery = 42 ∧
     (device_read (wii_raw_event (device_ioctl connectedDriver
        WIIMOTE_IOCTL_REQUEST_STATUS 0).2 [0x20, 42]).circ 1024
        noFault).2.1 = "Battery: 42\n".data) :=
  ⟨rfl, rfl, rfl, ⟨by decide, by decide⟩, by decide,
   C7_status_round_trip connectedDriver 0 rfl rfl rfl
     ⟨by decide, by decide⟩ (by decide)⟩

/-- C8: for every reachable driver state, the status ioctl fails with
`-ENODEV` exactly when the driver is disconnected (given the transport
itself reports success, a nonnegative count), and on that failure the
state is unchanged — in particular no command is sent. -/
theorem C8_no_device_iff_disconnected (st : DriverState)
    (hreach : ReachableD st) (r : Int) (hr : 0 ≤ r) :
    ((device_ioctl st WIIMOTE_IOCTL_REQUEST_STATUS r).1 = -19 ↔
      st.wii_connected = false) ∧
    (st.wii_connected = false →
      (device_ioctl st WIIMOTE_IOCTL_REQUEST_STATUS r).2 = st) := by
  have hsync := reachable_sync st hreach
  cases hd : st.wii_hid_dev with
  | false =>
    have hc : st.wii_connected = false := by rw [← hsync, hd]
    simp [device_ioctl, hd, hc]
  | true =>
    have hc : st.wii_connected = true := by rw [← hsync, hd]
    simp [device_ioctl, hd, hc]
    omega

/-- Witness for C8 at the initial (disconnected) state with transport 0. -/
theorem C8_no_device_iff_disconnected_witness :
    ReachableD initDriver ∧ (0 : Int) ≤ 0 ∧
    (((device_ioctl initDriver WIIMOTE_IOCTL_REQUEST_STATUS 0).1 = -19 ↔
       initDriver.wii_connected = false) ∧
     (initDriver.wii_connected = false →
       (device_ioctl initDriver WIIMOTE_IOCTL_REQUEST_STATUS 0).2
         = initDriver)) :=
  ⟨⟨[], rfl⟩, by decide,
   C8_no_device_iff_disconnected initDriver ⟨[], rfl⟩ 0 (by decide)⟩

/-- C9 counterexample: the raw battery byte is cached unchecked, so the
status report `[0x20, 200]` caches level 200, which is neither the unknown
sentinel nor in `0..100`. -/
theorem C9_battery_range_counterexample :
    (runDriver [DriverOp.report [32, 200]]).wii_last_battery = 200 ∧
    ¬((runDriver [DriverOp.report [32, 200]]).wii_last_battery = -1 ∨
      (0 ≤ (runDriver [DriverOp.report [32, 200]]).wii_last_battery ∧
       (runDriver [DriverOp.report [32, 200]]).wii_last_battery ≤ 100)) := by
  decide

/-- C9 (amended): after every sequence of operations the cached battery
level is either the unknown sentinel `-1` or an integer in `0..255` (the
raw report byte, not clamped to `0..100`). -/
theorem C9_battery_sentinel_or_byte (ops : List DriverOp) :
    (runDriver ops).wii_last_battery = -1 ∨
    (0 ≤ (runDriver ops).wii_last_battery ∧
      (runDriver ops).wii_last_battery ≤ 255) := by
  unfold runDriver
  exact runDriver_battery ops initDriver (Or.inl rfl)

/-- C10: when `copy_to_user` faults at offset `i` of the user buffer after
`i` bytes were already copied, `device_read` returns `-EFAULT`; the `i`
copied bytes are permanently consumed (the read index advanced past them),
the byte whose copy failed is still at the front of the buffer, and a
retried (non-faulting) read starts right after the consumed bytes. -/
theorem C10_read_fault_partial_consumption (s : CircState) (count i : Nat)
    (fault : Nat → Bool) (h : CircInv s)
    (hok : ∀ j, j < i → fault j = false) (hf : fault i = true)
    (hic : i < count) (hiocc : i < s.occupied) :
    (device_read s count fault).1 = -14 ∧
    (device_read s count fault).2.1 = (contents s).take i ∧
    contents (device_read s count fault).2.2 = (contents s).drop i ∧
    (∀ c : Nat,
      (device_read (device_read s count fault).2.2 c noFault).2.1
        = ((contents s).drop i).take c) := by
  have hok0 : ∀ j, j < i → fault (0 + j) = false := by simpa using hok
  have hf0 : fault (0 + i) = true := by simpa using hf
  obtain ⟨h1, h2, h3⟩ :=
    read_loop_fault_spec i count s 0 fault h hok0 hf0 hic hiocc
  have hinv2 : CircInv (device_read s count fault).2.2 :=
    read_loop_inv count s 0 fault h
  refine ⟨h1, h2, h3, fun c => ?_⟩
  have hr := (read_loop_spec c (device_read s count fault).2.2 0 hinv2).1
  have hr' : (device_read (device_read s count fault).2.2 c noFault).2.1
      = (contents (device_read s count fault).2.2).take c := hr
  have h3' : contents (device_read s count fault).2.2
      = (contents s).drop i := h3
  rw [hr', h3']

/-- Witness for C10: buffer holding `abc`, fault at user-buffer offset 1. -/
theorem C10_read_fault_partial_consumption_witness :
    CircInv (circ_buffer_write initCirc "abc".data) ∧
    (∀ j, j < 1 → (fun k => k == 1) j = false) ∧
    ((fun k => k == 1) 1 = true) ∧
    1 < 3 ∧
    1 < (circ_buffer_write initCirc "abc".data).occupied ∧
    ((device_read (circ_buffer_write initCirc "abc".data) 3
        (fun k => k == 1)).1 = -14 ∧
     (device_read (circ_buffer_write initCirc "abc".data) 3
        (fun k => k == 1)).2.1
        = (contents (circ_buffer_write initCirc "abc".data)).take 1 ∧
     contents (device_read (circ_buffer_write initCirc "abc".data) 3
        (fun k => k == 1)).2.2
        = (contents (circ_buffer_write initCirc "abc".data)).drop 1 ∧
     (∀ c : Nat,
       (device_read (device_read (circ_buffer_write initCirc "abc".data) 3
          (fun k => k == 1)).2.2 c noFault).2.1
         = ((contents (circ_buffer_write initCirc "abc".data)).drop 1).take
             c)) :=
  ⟨⟨by decide, by decide⟩, by decide, by decide, by decide, by decide,
   C10_read_fault_partial_consumption (circ_buffer_write initCirc "abc".data)
     3 1 (fun k => k == 1) ⟨by decide, by decide⟩ (by decide) (by decide)
     (by decide) (by decide)⟩
